import Mathlib

/-!
# TNeo-on-Unix architecture layer (`src/arch/unix/tn_arch_unix.h`)

A shallow embedding of the macro and constant contract that the Unix port of
the TNeo kernel exposes to the kernel core: the word-model constants, the
emulated interrupt flag with its enable/query pair, the critical-section
macros built on them, and the fatal-error macro.

Host-dependent quantities that the header leaves to the C implementation
(the width of `TN_TickCnt`, the width of `size_t`, `sizeof(TN_UWord)`) are
parameters of the definitions that depend on them.  Unsigned C arithmetic of
width `w` is arithmetic on `Nat` reduced modulo `2 ^ w`.
-/

namespace TNeo

/-! ## Word model -/

/-- `#define TN_INT_WIDTH (sizeof(TN_UWord) * 8)`.  The product is computed in
`size_t`, an unsigned type of `sizeBits` bits, so it is reduced modulo
`2 ^ sizeBits`; `sizeofUWord` is the host's `sizeof(TN_UWord)`. -/
def TN_INT_WIDTH (sizeBits sizeofUWord : Nat) : Nat :=
  (sizeofUWord * 8) % 2 ^ sizeBits

/-- `#define TN_PRIORITIES_MAX_CNT 32`. -/
def TN_PRIORITIES_MAX_CNT : Nat := 32

/-- `#define TN_WAIT_INFINITE (TN_TickCnt)0xFFFFFFFF`.  The cast converts the
constant to the unsigned tick-count type of `tickBits` bits, that is, reduces
it modulo `2 ^ tickBits`. -/
def TN_WAIT_INFINITE (tickBits : Nat) : Nat :=
  0xFFFFFFFF % 2 ^ tickBits

/-- `#define TN_FILL_STACK_VAL 0xFEEDFACE`. -/
def TN_FILL_STACK_VAL : Nat := 0xFEEDFACE

/-- `#define _TN_UNIX_INTSAVE_DATA_INVALID -1`. -/
def _TN_UNIX_INTSAVE_DATA_INVALID : Int := -1

/-! ## Process state -/

/-- The process-wide state the header's macros act on: the emulated
interrupt-enable flag behind `_tn_arch_unix_int_enable`, the
`extern int tn_save_status_reg` (`TN_INTSAVE_VAR`), and the text written so
far to the diagnostic stream `stderr`. -/
structure ArchState where
  int_enabled : Bool
  tn_save_status_reg : Int
  stderr : String
deriving DecidableEq, Repr

/-- How a piece of code ends: it returns to its caller in some state, or the
process is terminated by `abort()` in some state. -/
inductive Outcome where
  | returned (s : ArchState)
  | aborted (s : ArchState)
deriving DecidableEq, Repr

/-- C sequencing `first; rest`: `rest` runs only if `first` returned. -/
def Outcome.andThen (o : Outcome) (rest : ArchState → Outcome) : Outcome :=
  match o with
  | Outcome.returned s => rest s
  | Outcome.aborted s => Outcome.aborted s

/-! ## Interrupt controller -/

/-- Modelled from the spec: the body of `_tn_arch_unix_int_enable` is not in
the header, which only declares it `extern`.  Spec 4.1: "sets the
InterruptEnabledFlag to enabled if `flag` is true, disabled otherwise", with
no side effect beyond the flag; a C `int` is true when it is non-zero. -/
def _tn_arch_unix_int_enable (enabled : Int) (s : ArchState) : ArchState :=
  { s with int_enabled := decide (enabled ≠ 0) }

/-- Modelled from the spec: the body of `_tn_arch_unix_int_enabled` is not in
the header, which only declares it `extern`.  Spec 4.1: "returns current
state"; the header: "non-zero if interrupts are enabled, 0 otherwise". -/
def _tn_arch_unix_int_enabled (s : ArchState) : Int :=
  if s.int_enabled then 1 else 0

/-- A single-threaded sequence of calls `_tn_arch_unix_int_enable(e)`, one for
each element of `es`, in order. -/
def enableCalls (es : List Int) (s : ArchState) : ArchState :=
  es.foldl (fun st e => _tn_arch_unix_int_enable e st) s

/-! ## Critical-section macros -/

/-- `#define TN_INTSAVE_DATA` expands to nothing: the list of variables it
declares, as (type, name) pairs, is empty. -/
def TN_INTSAVE_DATA : List (String × String) := []

/-- `#define TN_INTSAVE_DATA_INT TN_INTSAVE_DATA`. -/
def TN_INTSAVE_DATA_INT : List (String × String) := TN_INTSAVE_DATA

/-- `#define TN_INT_DIS_SAVE() _tn_arch_unix_int_enable(0)`. -/
def TN_INT_DIS_SAVE (s : ArchState) : ArchState :=
  _tn_arch_unix_int_enable 0 s

/-- `#define TN_INT_RESTORE() _tn_arch_unix_int_enable(1)`. -/
def TN_INT_RESTORE (s : ArchState) : ArchState :=
  _tn_arch_unix_int_enable 1 s

/-- `#define TN_INT_IDIS_SAVE() TN_INT_DIS_SAVE()`. -/
def TN_INT_IDIS_SAVE (s : ArchState) : ArchState :=
  TN_INT_DIS_SAVE s

/-- `#define TN_INT_IRESTORE() TN_INT_RESTORE()`. -/
def TN_INT_IRESTORE (s : ArchState) : ArchState :=
  TN_INT_RESTORE s

/-- `#define TN_IS_INT_DISABLED() (!_tn_arch_unix_int_enabled())`.  C's `!`
yields `1` on a zero operand and `0` otherwise. -/
def TN_IS_INT_DISABLED (s : ArchState) : Int :=
  if _tn_arch_unix_int_enabled s = 0 then 1 else 0

/-! ## Fatal error -/

/-- One `fprintf(stderr, ...)` call whose formatted output is `text`: the text
is appended to the diagnostic stream. -/
def fprintf_stderr (text : String) (s : ArchState) : ArchState :=
  { s with stderr := s.stderr ++ text }

/-- The libc call `abort()`: the process terminates, nothing returns. -/
def abort (s : ArchState) : Outcome :=
  Outcome.aborted s

/-- The macro `_TN_FATAL_ERROR(...)` used at line `line` of file `file`, where
`msg` is what `fprintf(stderr, __VA_ARGS__)` formats:
```
fprintf(stderr, "%s:%u: ", __FILE__, __LINE__);
fprintf(stderr, __VA_ARGS__);
fprintf(stderr, "\n");
abort();
```
-/
def _TN_FATAL_ERROR (file : String) (line : Nat) (msg : String)
    (s : ArchState) : Outcome :=
  let s1 := fprintf_stderr (file ++ ":" ++ Nat.repr line ++ ": ") s
  let s2 := fprintf_stderr msg s1
  let s3 := fprintf_stderr "\n" s2
  abort s3

/-! ## Critical-section steps and their interleavings -/

/-- One use of a critical-section macro, taken as a single atomic step on the
shared state. -/
inductive CritOp where
  | dis_save
  | restore
  | idis_save
  | irestore
deriving DecidableEq, Repr

/-- Executing one macro use.  None of the four macros contains a
`_TN_FATAL_ERROR` branch, so each of them returns. -/
def CritOp.exec : CritOp → ArchState → Outcome
  | CritOp.dis_save, s => Outcome.returned (TN_INT_DIS_SAVE s)
  | CritOp.restore, s => Outcome.returned (TN_INT_RESTORE s)
  | CritOp.idis_save, s => Outcome.returned (TN_INT_IDIS_SAVE s)
  | CritOp.irestore, s => Outcome.returned (TN_INT_IRESTORE s)

/-- The task-context macro at the place of an ISR-context one. -/
def CritOp.taskForm : CritOp → CritOp
  | CritOp.idis_save => CritOp.dis_save
  | CritOp.irestore => CritOp.restore
  | op => op

/-- Executing a sequence of steps in order, stopping at an abort. -/
def runSteps : List CritOp → ArchState → Outcome
  | [], s => Outcome.returned s
  | op :: ops, s => (op.exec s).andThen (runSteps ops)

/-- The steps of one thread looping `n` times over
`TN_INT_DIS_SAVE(); TN_INT_RESTORE();`. -/
def critLoop : Nat → List CritOp
  | 0 => []
  | n + 1 => CritOp.dis_save :: CritOp.restore :: critLoop n

/-- Whether `tr` is an order-preserving merge of the step sequences `xs` and
`ys` of two threads: every step of `tr` is the next step of one of them. -/
def isMerge : List CritOp → List CritOp → List CritOp → Bool
  | [], xs, ys => xs.isEmpty && ys.isEmpty
  | z :: zs, xs, ys =>
    (match xs with
      | x :: xs1 => decide (x = z) && isMerge zs xs1 ys
      | [] => false) ||
    (match ys with
      | y :: ys1 => decide (y = z) && isMerge zs xs ys1
      | [] => false)

/-! ## Helper lemmas -/

theorem enabled_after_enable (e : Int) (s : ArchState) :
    _tn_arch_unix_int_enabled (_tn_arch_unix_int_enable e s) = if e = 0 then 0 else 1 := by
  by_cases h : e = 0 <;> simp [_tn_arch_unix_int_enabled, _tn_arch_unix_int_enable, h]

theorem enableCalls_snoc (es : List Int) (e : Int) (s : ArchState) :
    enableCalls (es ++ [e]) s = _tn_arch_unix_int_enable e (enableCalls es s) := by
  simp [enableCalls, List.foldl_append]

theorem critOp_exec_returned (op : CritOp) (s : ArchState) :
    ∃ t, op.exec s = Outcome.returned t := by
  cases op <;> exact ⟨_, rfl⟩

theorem runSteps_snoc_restore (ops : List CritOp) (s : ArchState) :
    ∃ t, runSteps (ops ++ [CritOp.restore]) s = Outcome.returned t ∧ t.int_enabled = true := by
  induction ops generalizing s with
  | nil => exact ⟨TN_INT_RESTORE s, rfl, rfl⟩
  | cons op ops ih =>
    obtain ⟨u, hu⟩ := critOp_exec_returned op s
    obtain ⟨t, ht, hen⟩ := ih u
    refine ⟨t, ?_, hen⟩
    simp only [List.cons_append, runSteps, hu, Outcome.andThen]
    exact ht

theorem isMerge_nil_left (tr ys : List CritOp) (h : isMerge tr [] ys = true) : tr = ys := by
  induction tr generalizing ys with
  | nil =>
    cases ys with
    | nil => rfl
    | cons y ys => simp [isMerge] at h
  | cons z zs ih =>
    cases ys with
    | nil => simp [isMerge] at h
    | cons y ys =>
      simp only [isMerge, Bool.false_or, Bool.and_eq_true, decide_eq_true_eq] at h
      rw [h.1, ih ys h.2]

theorem isMerge_nil_right (tr xs : List CritOp) (h : isMerge tr xs [] = true) : tr = xs := by
  induction tr generalizing xs with
  | nil =>
    cases xs with
    | nil => rfl
    | cons x xs => simp [isMerge] at h
  | cons z zs ih =>
    cases xs with
    | nil => simp [isMerge] at h
    | cons x xs =>
      simp only [isMerge, Bool.or_false, Bool.and_eq_true, decide_eq_true_eq] at h
      rw [h.1, ih xs h.2]

theorem isMerge_snoc (r : CritOp) (tr xs ys : List CritOp)
    (h : isMerge tr (xs ++ [r]) (ys ++ [r]) = true) : ∃ pre, tr = pre ++ [r] := by
  induction tr generalizing xs ys with
  | nil =>
    cases xs <;> simp [isMerge] at h
  | cons z zs ih =>
    simp only [isMerge, Bool.or_eq_true] at h
    rcases h with h | h
    · cases xs with
      | nil =>
        simp only [List.nil_append, Bool.and_eq_true, decide_eq_true_eq] at h
        have := isMerge_nil_left zs (ys ++ [r]) h.2
        exact ⟨z :: ys, by simp [this]⟩
      | cons x xs1 =>
        simp only [List.cons_append, Bool.and_eq_true, decide_eq_true_eq] at h
        obtain ⟨pre, hpre⟩ := ih xs1 ys h.2
        exact ⟨z :: pre, by simp [hpre]⟩
    · cases ys with
      | nil =>
        simp only [List.nil_append, Bool.and_eq_true, decide_eq_true_eq] at h
        have := isMerge_nil_right zs (xs ++ [r]) h.2
        exact ⟨z :: xs, by simp [this]⟩
      | cons y ys1 =>
        simp only [List.cons_append, Bool.and_eq_true, decide_eq_true_eq] at h
        obtain ⟨pre, hpre⟩ := ih xs ys1 h.2
        exact ⟨z :: pre, by simp [hpre]⟩

theorem critLoop_succ_snoc (n : Nat) : ∃ pre, critLoop (n + 1) = pre ++ [CritOp.restore] := by
  induction n with
  | zero => exact ⟨[CritOp.dis_save], rfl⟩
  | succ n ih =>
    obtain ⟨pre, hpre⟩ := ih
    exact ⟨CritOp.dis_save :: CritOp.restore :: pre, by rw [critLoop, hpre]; rfl⟩

theorem runSteps_map_taskForm (ops : List CritOp) (s : ArchState) :
    runSteps (ops.map CritOp.taskForm) s = runSteps ops s := by
  induction ops generalizing s with
  | nil => rfl
  | cons op ops ih =>
    cases op <;> simp [runSteps, CritOp.taskForm, CritOp.exec, Outcome.andThen, ih,
      TN_INT_IDIS_SAVE, TN_INT_IRESTORE]

theorem runSteps_returned (ops : List CritOp) (s : ArchState) :
    ∃ t, runSteps ops s = Outcome.returned t := by
  induction ops generalizing s with
  | nil => exact ⟨s, rfl⟩
  | cons op ops ih =>
    obtain ⟨u, hu⟩ := critOp_exec_returned op s
    obtain ⟨t, ht⟩ := ih u
    exact ⟨t, by simp only [runSteps, hu, Outcome.andThen]; exact ht⟩

theorem wait_infinite_of_le (w : Nat) (hw : 32 ≤ w) : TN_WAIT_INFINITE w = 2 ^ 32 - 1 := by
  have h : 2 ^ 32 ≤ 2 ^ w := Nat.pow_le_pow_right (by decide) hw
  unfold TN_WAIT_INFINITE
  rw [Nat.mod_eq_of_lt (by omega)]
  norm_num

theorem int_width_of_small (sizeBits sz : Nat) (hb : 16 ≤ sizeBits) (hs : sz ≤ 8191) :
    sz * 8 < 2 ^ sizeBits ∧ TN_INT_WIDTH sizeBits sz = 8 * sz := by
  have h : 2 ^ 16 ≤ 2 ^ sizeBits := Nat.pow_le_pow_right (by decide) hb
  have hlt : sz * 8 < 2 ^ sizeBits := by omega
  exact ⟨hlt, by unfold TN_INT_WIDTH; rw [Nat.mod_eq_of_lt hlt]; omega⟩

theorem is_disabled_eq (s : ArchState) :
    TN_IS_INT_DISABLED s = if s.int_enabled then 0 else 1 := by
  cases h : s.int_enabled <;> simp [TN_IS_INT_DISABLED, _tn_arch_unix_int_enabled, h]

/-- An example of the fatal-error text: the line number is printed in decimal. -/
theorem fatal_error_example :
    _TN_FATAL_ERROR "tn_tasks.c" 120 "bad state" ⟨false, -1, "boot\n"⟩ =
      Outcome.aborted ⟨false, -1, "boot\ntn_tasks.c:120: bad state\n"⟩ := by
  decide

/-! ## The wait-infinite sentinel -/

/-- C1, counterexample: on a host whose `unsigned long` has 64 bits the value of
`TN_WAIT_INFINITE` is not the maximum `2 ^ 64 - 1` of the tick-count type, and
the finite tick count `2 ^ 32` of that type is greater than it. -/
theorem C1_wait_infinite_not_max_at_64 :
    TN_WAIT_INFINITE 64 ≠ 2 ^ 64 - 1 ∧
    (2 ^ 32 < 2 ^ 64 ∧ 2 ^ 32 ≠ TN_WAIT_INFINITE 64 ∧ TN_WAIT_INFINITE 64 ≤ 2 ^ 32) := by
  rw [wait_infinite_of_le 64 (by decide)]
  norm_num

/-- C1, amended: for every width `w ≥ 32` of the tick-count type,
`TN_WAIT_INFINITE` is `2 ^ 32 - 1`; it is the maximum `2 ^ w - 1` of the type
exactly when `w = 32`, and then every other tick count of the type lies
strictly below it. -/
theorem C1_wait_infinite_value (w t : Nat) (hw : 32 ≤ w) (ht : t < 2 ^ w)
    (hne : t ≠ TN_WAIT_INFINITE w) :
    TN_WAIT_INFINITE w = 2 ^ 32 - 1 ∧
    (TN_WAIT_INFINITE w = 2 ^ w - 1 ↔ w = 32) ∧
    (w = 32 → t < TN_WAIT_INFINITE w) := by
  have hv := wait_infinite_of_le w hw
  refine ⟨hv, ?_, ?_⟩
  · rw [hv]
    constructor
    · intro h
      by_contra hne32
      have h33 : 2 ^ 33 ≤ 2 ^ w := Nat.pow_le_pow_right (by decide) (by omega)
      have : (2 : Nat) ^ 33 = 2 * 2 ^ 32 := by norm_num
      have hpos : 0 < 2 ^ 32 := by positivity
      omega
    · intro h
      rw [h]
  · intro h
    subst h
    rw [hv] at hne ⊢
    omega

/-- Witness of `C1_wait_infinite_value` at a 32-bit tick-count type and the
tick count 5. -/
theorem C1_wait_infinite_value_witness :
    32 ≤ 32 ∧ 5 < 2 ^ 32 ∧ 5 ≠ TN_WAIT_INFINITE 32 ∧
    TN_WAIT_INFINITE 32 = 2 ^ 32 - 1 ∧ 5 < TN_WAIT_INFINITE 32 :=
  have h := C1_wait_infinite_value 32 5 (by decide) (by decide) (by decide)
  ⟨by decide, by decide, by decide, h.1, h.2.2 rfl⟩

/-- C7: every tick count `t` with `t ≤ 2 ^ 32 - 2` is strictly below
`TN_WAIT_INFINITE`, whatever the width `w ≥ 32` of the tick-count type, so the
sentinel is none of these counts. -/
theorem C7_finite_ticks_below_sentinel (w t : Nat) (hw : 32 ≤ w) (ht : t ≤ 2 ^ 32 - 2) :
    t < TN_WAIT_INFINITE w ∧ t ≠ TN_WAIT_INFINITE w := by
  rw [wait_infinite_of_le w hw]
  norm_num at ht ⊢
  omega

/-- Witness of `C7_finite_ticks_below_sentinel` at a 64-bit tick-count type and
the largest count `2 ^ 32 - 2` of the range. -/
theorem C7_finite_ticks_below_sentinel_witness :
    32 ≤ 64 ∧ 4294967294 ≤ 2 ^ 32 - 2 ∧
    4294967294 < TN_WAIT_INFINITE 64 ∧ 4294967294 ≠ TN_WAIT_INFINITE 64 :=
  ⟨by decide, by decide,
    C7_finite_ticks_below_sentinel 64 4294967294 (by decide) (by decide)⟩

/-! ## The word width and the priority count -/

/-- C9: on a host whose `size_t` has at least 16 bits and whose `TN_UWord`
takes `sz ≤ 8191` bytes, the product `sizeof(TN_UWord) * 8` does not overflow
`size_t` and `TN_INT_WIDTH` is exactly `8 * sz`; it is 32 for a 4-byte
`TN_UWord`. -/
theorem C9_int_width_is_eight_sizeof (sizeBits sz : Nat) (hb : 16 ≤ sizeBits)
    (hs : sz ≤ 8191) :
    TN_INT_WIDTH sizeBits sz = 8 * sz ∧ sz * 8 < 2 ^ sizeBits ∧
    TN_INT_WIDTH sizeBits 4 = 32 := by
  obtain ⟨hlt, hv⟩ := int_width_of_small sizeBits sz hb hs
  exact ⟨hv, hlt, (int_width_of_small sizeBits 4 hb (by decide)).2⟩

/-- Witness of `C9_int_width_is_eight_sizeof` on a host with a 64-bit `size_t`
and an 8-byte word. -/
theorem C9_int_width_is_eight_sizeof_witness :
    16 ≤ 64 ∧ 8 ≤ 8191 ∧
    (TN_INT_WIDTH 64 8 = 8 * 8 ∧ 8 * 8 < 2 ^ 64 ∧ TN_INT_WIDTH 64 4 = 32) :=
  ⟨by decide, by decide, C9_int_width_is_eight_sizeof 64 8 (by decide) (by decide)⟩

/-- C8: `TN_PRIORITIES_MAX_CNT` is 32 and, with a 4-byte `TN_UWord`, it is at
most `TN_INT_WIDTH`; a bitmap with one bit for each priority of a set `ps` of
priorities below `TN_PRIORITIES_MAX_CNT` is below `2 ^ TN_INT_WIDTH`, so it
fits in one `TN_UWord`. -/
theorem C8_priorities_fit_in_word (sizeBits : Nat) (ps : Finset Nat) (hb : 16 ≤ sizeBits)
    (hps : ∀ p ∈ ps, p < TN_PRIORITIES_MAX_CNT) :
    TN_PRIORITIES_MAX_CNT = 32 ∧
    TN_PRIORITIES_MAX_CNT ≤ TN_INT_WIDTH sizeBits 4 ∧
    (∑ p in ps, 2 ^ p) < 2 ^ TN_INT_WIDTH sizeBits 4 := by
  have hw : TN_INT_WIDTH sizeBits 4 = 32 := (int_width_of_small sizeBits 4 hb (by decide)).2
  rw [hw]
  refine ⟨rfl, by decide, ?_⟩
  have hsub : ps ⊆ Finset.range 32 := fun p hp => Finset.mem_range.mpr (hps p hp)
  have hle : (∑ p in ps, 2 ^ p) ≤ ∑ p in Finset.range 32, 2 ^ p :=
    Finset.sum_le_sum_of_subset hsub
  have hfull : (∑ p in Finset.range 32, 2 ^ p) = 2 ^ 32 - 1 := by
    simp [Finset.sum_range_succ]
  rw [hfull] at hle
  have : 0 < 2 ^ 32 := by positivity
  omega

/-- Witness of `C8_priorities_fit_in_word` on a host with a 64-bit `size_t`, for
the bitmap of the lowest and the highest priority. -/
theorem C8_priorities_fit_in_word_witness :
    16 ≤ 64 ∧ (∀ p ∈ ({0, 31} : Finset Nat), p < TN_PRIORITIES_MAX_CNT) ∧
    (TN_PRIORITIES_MAX_CNT = 32 ∧ TN_PRIORITIES_MAX_CNT ≤ TN_INT_WIDTH 64 4 ∧
      (∑ p in ({0, 31} : Finset Nat), 2 ^ p) < 2 ^ TN_INT_WIDTH 64 4) :=
  ⟨by decide, by decide, C8_priorities_fit_in_word 64 {0, 31} (by decide) (by decide)⟩

/-! ## The interrupt controller -/

/-- C4: after a non-empty single-threaded sequence of calls
`_tn_arch_unix_int_enable(e)`, `_tn_arch_unix_int_enabled()` is non-zero
exactly when the last argument is non-zero; a run from any other starting
state with any other earlier calls and the same last argument returns the same
value. -/
theorem C4_enabled_reflects_last_call (s : ArchState) (es : List Int) (h : es ≠ []) :
    (_tn_arch_unix_int_enabled (enableCalls es s) ≠ 0 ↔ es.getLast h ≠ 0) ∧
    ∀ (s2 : ArchState) (pre : List Int),
      _tn_arch_unix_int_enabled (enableCalls (pre ++ [es.getLast h]) s2) =
        _tn_arch_unix_int_enabled (enableCalls es s) := by
  have hsplit : enableCalls es s =
      _tn_arch_unix_int_enable (es.getLast h) (enableCalls es.dropLast s) := by
    rw [← enableCalls_snoc, List.dropLast_append_getLast h]
  constructor
  · rw [hsplit, enabled_after_enable]
    by_cases h0 : es.getLast h = 0 <;> simp [h0]
  · intro s2 pre
    rw [hsplit, enableCalls_snoc, enabled_after_enable, enabled_after_enable]

/-- Witness of `C4_enabled_reflects_last_call` for the calls with arguments
0, 7, 0, -3 from the disabled state: the result is non-zero as -3 is. -/
theorem C4_enabled_reflects_last_call_witness :
    ([0, 7, 0, -3] : List Int) ≠ [] ∧
    (_tn_arch_unix_int_enabled (enableCalls [0, 7, 0, -3] ⟨false, -1, ""⟩) ≠ 0 ↔
      (-3 : Int) ≠ 0) :=
  ⟨by decide, (C4_enabled_reflects_last_call ⟨false, -1, ""⟩ [0, 7, 0, -3] (by decide)).1⟩

/-! ## Critical sections -/

/-- C2, counterexample: from the enabled state, after
`TN_INT_DIS_SAVE(); TN_INT_DIS_SAVE(); TN_INT_RESTORE()` the macro
`TN_IS_INT_DISABLED()` is zero: the inner exit has re-enabled interrupts. -/
theorem C2_inner_restore_reenables :
    TN_IS_INT_DISABLED
      (TN_INT_RESTORE (TN_INT_DIS_SAVE (TN_INT_DIS_SAVE ⟨true, -1, ""⟩))) = 0 := by
  decide

/-- C2, amended: for every starting state, `TN_IS_INT_DISABLED()` is non-zero
after `TN_INT_DIS_SAVE(); TN_INT_DIS_SAVE()`, zero after the inner
`TN_INT_RESTORE()` that follows, and still zero after the outer one. -/
theorem C2_nested_restore_goes_to_enabled (s : ArchState) :
    TN_IS_INT_DISABLED (TN_INT_DIS_SAVE (TN_INT_DIS_SAVE s)) ≠ 0 ∧
    TN_IS_INT_DISABLED (TN_INT_RESTORE (TN_INT_DIS_SAVE (TN_INT_DIS_SAVE s))) = 0 ∧
    TN_IS_INT_DISABLED
      (TN_INT_RESTORE (TN_INT_RESTORE (TN_INT_DIS_SAVE (TN_INT_DIS_SAVE s)))) = 0 := by
  simp [is_disabled_eq, TN_INT_DIS_SAVE, TN_INT_RESTORE, _tn_arch_unix_int_enable]

/-- C3: for every state, whatever the flag and the saved-status variable hold,
`TN_IS_INT_DISABLED()` is non-zero right after `TN_INT_DIS_SAVE()` and zero
right after `TN_INT_RESTORE()`, also when the restore follows the save. -/
theorem C3_disabled_after_enter_enabled_after_exit (s : ArchState) :
    TN_IS_INT_DISABLED (TN_INT_DIS_SAVE s) ≠ 0 ∧
    TN_IS_INT_DISABLED (TN_INT_RESTORE s) = 0 ∧
    TN_IS_INT_DISABLED (TN_INT_RESTORE (TN_INT_DIS_SAVE s)) = 0 := by
  simp [is_disabled_eq, TN_INT_DIS_SAVE, TN_INT_RESTORE, _tn_arch_unix_int_enable]

/-- C10: the ISR-context macros act as the task-context ones: on every state
`TN_INT_IDIS_SAVE()` gives the state of `TN_INT_DIS_SAVE()`, which is that of
`_tn_arch_unix_int_enable(0)`, and `TN_INT_IRESTORE()` the state of
`TN_INT_RESTORE()`, which is that of `_tn_arch_unix_int_enable(1)`; a sequence
of macro uses run with each ISR-context macro replaced by its task-context one
ends the same; `TN_INTSAVE_DATA_INT` declares what `TN_INTSAVE_DATA` declares,
which is nothing. -/
theorem C10_isr_family_equals_task_family (s : ArchState) (ops : List CritOp) :
    TN_INT_IDIS_SAVE s = TN_INT_DIS_SAVE s ∧
    TN_INT_IRESTORE s = TN_INT_RESTORE s ∧
    TN_INT_IDIS_SAVE s = _tn_arch_unix_int_enable 0 s ∧
    TN_INT_IRESTORE s = _tn_arch_unix_int_enable 1 s ∧
    runSteps (ops.map CritOp.taskForm) s = runSteps ops s ∧
    TN_INTSAVE_DATA_INT = TN_INTSAVE_DATA ∧ TN_INTSAVE_DATA = [] :=
  ⟨rfl, rfl, rfl, rfl, runSteps_map_taskForm ops s, rfl, rfl⟩

/-- C5: for every `n ≥ 1`, every starting state and every order-preserving
merge `tr` of the steps of two threads that each loop `n` times over
`TN_INT_DIS_SAVE(); TN_INT_RESTORE()`, the run of `tr` returns in a state with
interrupts enabled (`TN_IS_INT_DISABLED()` is zero), and every prefix of the
run returns as well: no step aborts. -/
theorem C5_two_threads_end_enabled (n : Nat) (s : ArchState) (tr : List CritOp)
    (hn : 1 ≤ n) (hm : isMerge tr (critLoop n) (critLoop n) = true) :
    (∃ t, runSteps tr s = Outcome.returned t ∧ t.int_enabled = true ∧
      TN_IS_INT_DISABLED t = 0) ∧
    ∀ k, ∃ u, runSteps (tr.take k) s = Outcome.returned u := by
  obtain ⟨m, rfl⟩ : ∃ m, n = m + 1 := ⟨n - 1, by omega⟩
  obtain ⟨body, hbody⟩ := critLoop_succ_snoc m
  rw [hbody] at hm
  obtain ⟨pre, rfl⟩ := isMerge_snoc CritOp.restore tr body body hm
  obtain ⟨t, ht, hen⟩ := runSteps_snoc_restore pre s
  exact ⟨⟨t, ht, hen, by rw [is_disabled_eq, hen]; rfl⟩, fun k => runSteps_returned _ s⟩

/-- Witness of `C5_two_threads_end_enabled` for one loop turn in each thread,
from the disabled state, with the second thread entering between the first
thread's enter and exit. -/
theorem C5_two_threads_end_enabled_witness :
    1 ≤ 1 ∧
    isMerge [CritOp.dis_save, CritOp.dis_save, CritOp.restore, CritOp.restore]
      (critLoop 1) (critLoop 1) = true ∧
    ((∃ t, runSteps [CritOp.dis_save, CritOp.dis_save, CritOp.restore, CritOp.restore]
        ⟨false, -1, ""⟩ = Outcome.returned t ∧ t.int_enabled = true ∧
        TN_IS_INT_DISABLED t = 0) ∧
      ∀ k, ∃ u, runSteps
        ([CritOp.dis_save, CritOp.dis_save, CritOp.restore, CritOp.restore].take k)
        ⟨false, -1, ""⟩ = Outcome.returned u) :=
  ⟨by decide, by decide,
    C5_two_threads_end_enabled 1 ⟨false, -1, ""⟩ _ (by decide) (by decide)⟩

/-! ## The fatal error -/

/-- C6: for every file name, line number and formatted message,
`_TN_FATAL_ERROR` ends in the aborted outcome, in the state whose diagnostic
stream is the old one followed by exactly `file:line: msg` and a newline, the
line in decimal, with flag and saved status unchanged; it is never a return,
and whatever statement follows it is not executed. -/
theorem C6_fatal_error_writes_and_aborts (file : String) (line : Nat) (msg : String)
    (s : ArchState) :
    _TN_FATAL_ERROR file line msg s =
      Outcome.aborted ⟨s.int_enabled, s.tn_save_status_reg,
        s.stderr ++ (file ++ ":" ++ Nat.repr line ++ ": " ++ msg ++ "\n")⟩ ∧
    (∀ t, _TN_FATAL_ERROR file line msg s ≠ Outcome.returned t) ∧
    ∀ rest : ArchState → Outcome,
      (_TN_FATAL_ERROR file line msg s).andThen rest = _TN_FATAL_ERROR file line msg s := by
  have h : _TN_FATAL_ERROR file line msg s =
      Outcome.aborted ⟨s.int_enabled, s.tn_save_status_reg,
        s.stderr ++ (file ++ ":" ++ Nat.repr line ++ ": " ++ msg ++ "\n")⟩ := by
    simp [_TN_FATAL_ERROR, abort, fprintf_stderr, String.append_assoc]
  refine ⟨h, ?_, ?_⟩
  · intro t
    rw [h]
    exact fun hc => Outcome.noConfusion hc
  · intro rest
    rw [h]
    rfl

end TNeo
